import Mathlib

/-!
# Verification of the rucbase storage core

A shallow embedding of the repository's record manager
(`src/record/rm_file_handle.cpp`, `src/record/rm_scan.cpp`) and buffer pool
(`src/storage/buffer_pool_manager.cpp`), with theorems checking the
natural-language specification against the code.

Modelling conventions:
* Machine `int` fields (page numbers, slot numbers, counters) are `Int`;
  the sentinel `RM_NO_PAGE = -1` is kept as in the source.
* A page's occupancy bitmap is a function `Int → Bool`; the bitmap utility
  (`Bitmap::set/reset/is_set/first_bit/next_bit`) is embedded below.
* A record slot holds a whole record value (`Rec := List Int`); the
  `memcpy` of `record_size` bytes into or out of a slot is modelled as
  copying the slot value.
* Record operations also return the list of buffer-pool acquisitions and
  releases they perform (`BPCall`); a C++ `throw` becomes `Except.error`,
  and on every error path of the source all mutations happen after the
  checks, so the error result carries no mutated state.
* The disk manager and replacer are external collaborators; the buffer
  pool's `new_page` is modelled as succeeding, with the disk manager
  handing out the next page number (`num_pages`), matching the sequential
  file layout of the spec.
-/

/-- Sentinel terminating the free-page chain (`RM_NO_PAGE` in the source). -/
def RM_NO_PAGE : Int := -1

/-- First data page of a record file (`RM_FIRST_RECORD_PAGE` in the source). -/
def RM_FIRST_RECORD_PAGE : Int := 1

/-- A record value; stands for the `record_size` bytes of one slot. -/
abbrev Rec := List Int

/-- Record identifier: page number and slot number (`Rid` in the source). -/
structure Rid where
  page_no : Int
  slot_no : Int
deriving DecidableEq, Repr

namespace Bitmap

/-- `Bitmap::set`: set bit `i`. -/
def set (bm : Int → Bool) (i : Int) : Int → Bool := Function.update bm i true

/-- `Bitmap::reset`: clear bit `i`. -/
def reset (bm : Int → Bool) (i : Int) : Int → Bool := Function.update bm i false

/-- `Bitmap::is_set`: test bit `i`. -/
def is_set (bm : Int → Bool) (i : Int) : Bool := bm i

/-- `Bitmap::first_bit`: smallest `i ∈ [0, n)` with bit value `v`, else `n`. -/
def first_bit (v : Bool) (bm : Int → Bool) (n : Int) : Int :=
  match (List.range n.toNat).find? (fun i : Nat => bm (i : Int) == v) with
  | some i => (i : Int)
  | none => n

/-- `Bitmap::next_bit`: smallest `i ∈ (prev, n)` with bit value `v`, else `n`. -/
def next_bit (v : Bool) (bm : Int → Bool) (n : Int) (prev : Int) : Int :=
  match (List.range n.toNat).find?
      (fun i : Nat => decide (prev < (i : Int)) && (bm (i : Int) == v)) with
  | some i => (i : Int)
  | none => n

end Bitmap

/-- Number of set bits among the first `n` bits of a bitmap. -/
def popcount (bm : Int → Bool) (n : Int) : Nat :=
  ((List.range n.toNat).filter (fun i => bm (i : Int))).length

/-- A data page: `RmPageHdr` fields, occupancy bitmap, and slot array. -/
structure RmPage where
  num_records : Int
  next_free_page_no : Int
  bitmap : Int → Bool
  slots : Int → Rec

/-- The record file header (`RmFileHdr` in the source). -/
structure RmFileHdr where
  record_size : Int
  num_records_per_page : Int
  num_pages : Int
  first_free_page_no : Int

/-- A record file: header plus pages, as seen through the buffer pool. -/
structure RmFile where
  file_hdr : RmFileHdr
  pages : Int → RmPage

/-- Typed errors thrown by the record layer. -/
inductive RmError where
  | pageNotExist (page_no : Int)
  | recordNotFound (page_no : Int) (slot_no : Int)
deriving DecidableEq, Repr

/-- One buffer-pool acquisition or release performed by a record operation. -/
inductive BPCall where
  | fetch (page_no : Int)
  | newp (page_no : Int)
  | unpin (page_no : Int) (dirty : Bool)
deriving DecidableEq, Repr

/-- Net pin-count effect of a call list on page `p`:
`fetch`/`new_page` pin (+1), `unpin_page` unpins (−1). -/
def pinDelta (calls : List BPCall) (p : Int) : Int :=
  calls.foldl (fun acc c =>
    match c with
    | .fetch q => if q = p then acc + 1 else acc
    | .newp q => if q = p then acc + 1 else acc
    | .unpin q _ => if q = p then acc - 1 else acc) 0

/-- `RmFileHandle::fetch_page_handle`: throw `PageNotExistError` when
`page_no >= num_pages`, else hand back the page (pinning it in the pool). -/
def fetch_page_handle (f : RmFile) (page_no : Int) : Except RmError RmPage :=
  if page_no ≥ f.file_hdr.num_pages then .error (.pageNotExist page_no)
  else .ok (f.pages page_no)

/-- `RmFileHandle::create_new_page_handle`: allocate a fresh page through
`new_page` (modelled as the next page number, zero-filled buffer), set
`num_records = 0`, `next_free_page_no = RM_NO_PAGE`, bump `num_pages` and
make the new page the head of the free chain.  Returns the updated file and
the new page number. -/
def create_new_page_handle (f : RmFile) : RmFile × Int :=
  let pno := f.file_hdr.num_pages
  let page : RmPage :=
    { num_records := 0
      next_free_page_no := RM_NO_PAGE
      bitmap := fun _ => false
      slots := fun _ => List.replicate f.file_hdr.record_size.toNat 0 }
  ({ file_hdr := { f.file_hdr with
        num_pages := f.file_hdr.num_pages + 1
        first_free_page_no := pno }
     pages := Function.update f.pages pno page }, pno)

/-- `RmFileHandle::create_page_handle`: if the free chain is empty create a
new page, else fetch the head of the chain. -/
def create_page_handle (f : RmFile) : Except RmError (RmFile × Int) × List BPCall :=
  if f.file_hdr.first_free_page_no = RM_NO_PAGE then
    let (f1, pno) := create_new_page_handle f
    (.ok (f1, pno), [.newp pno])
  else
    match fetch_page_handle f f.file_hdr.first_free_page_no with
    | .error e => (.error e, [])
    | .ok _ => (.ok (f, f.file_hdr.first_free_page_no), [.fetch f.file_hdr.first_free_page_no])

/-- `RmFileHandle::get_record`: fetch the page, fail with `RecordNotFound`
when the bitmap bit is clear, else copy the slot out.  The source returns
without unpinning the fetched page. -/
def get_record (f : RmFile) (rid : Rid) : Except RmError Rec × List BPCall :=
  match fetch_page_handle f rid.page_no with
  | .error e => (.error e, [])
  | .ok ph =>
    if !(Bitmap.is_set ph.bitmap rid.slot_no) then
      (.error (.recordNotFound rid.page_no rid.slot_no), [.fetch rid.page_no])
    else
      (.ok (ph.slots rid.slot_no), [.fetch rid.page_no])

/-- `RmFileHandle::insert_record(buf)`: take a page with free space via
`create_page_handle`, put `buf` into the first clear slot, set the bit,
increment `num_records`, and when the page becomes full unlink it from the
free chain (`first_free_page_no := page.next_free_page_no`).  The source
returns without unpinning. -/
def insert_record (f : RmFile) (buf : Rec) : Except RmError (Rid × RmFile) × List BPCall :=
  match create_page_handle f with
  | (.error e, calls) => (.error e, calls)
  | (.ok (f1, pno), calls) =>
    let ph := f1.pages pno
    let free_slot := Bitmap.first_bit false ph.bitmap f1.file_hdr.num_records_per_page
    let ph1 := { ph with slots := Function.update ph.slots free_slot buf }
    let ph2 := { ph1 with bitmap := Bitmap.set ph1.bitmap free_slot }
    let ph3 := { ph2 with num_records := ph2.num_records + 1 }
    let f2 := { f1 with pages := Function.update f1.pages pno ph3 }
    let f3 :=
      if ph3.num_records = f2.file_hdr.num_records_per_page then
        { f2 with file_hdr := { f2.file_hdr with first_free_page_no := ph3.next_free_page_no } }
      else f2
    (.ok (⟨pno, free_slot⟩, f3), calls)

/-- `RmFileHandle::release_page_handle`: the source assigns
`page.next_free_page_no = first_free_page_no` and then
`first_free_page_no = page.next_free_page_no` (reading the value it just
wrote), exactly as sequenced in the C++. -/
def release_page_handle (f : RmFile) (pno : Int) : RmFile :=
  let ph := f.pages pno
  let ph1 := { ph with next_free_page_no := f.file_hdr.first_free_page_no }
  let f1 := { f with pages := Function.update f.pages pno ph1 }
  { f1 with file_hdr := { f1.file_hdr with
      first_free_page_no := (f1.pages pno).next_free_page_no } }

/-- `RmFileHandle::delete_record`: fetch the page; when the bit is clear the
source throws `PageNotExistError` (not `RecordNotFound`).  It always clears
the bit, but decrements `num_records` and releases the page only when the
page was full; otherwise it returns early.  No unpin in the source. -/
def delete_record (f : RmFile) (rid : Rid) : Except RmError RmFile × List BPCall :=
  match fetch_page_handle f rid.page_no with
  | .error e => (.error e, [])
  | .ok ph =>
    if !(Bitmap.is_set ph.bitmap rid.slot_no) then
      (.error (.pageNotExist rid.page_no), [.fetch rid.page_no])
    else
      let ph1 := { ph with bitmap := Bitmap.reset ph.bitmap rid.slot_no }
      if ph1.num_records = f.file_hdr.num_records_per_page then
        let ph2 := { ph1 with num_records := ph1.num_records - 1 }
        let f1 := { f with pages := Function.update f.pages rid.page_no ph2 }
        (.ok (release_page_handle f1 rid.page_no), [.fetch rid.page_no])
      else
        let f1 := { f with pages := Function.update f.pages rid.page_no ph1 }
        (.ok f1, [.fetch rid.page_no])

/-- `RmFileHandle::update_record`: fetch the page; when the bit is clear the
source throws `PageNotExistError` (not `RecordNotFound`); else overwrite the
slot.  No unpin in the source. -/
def update_record (f : RmFile) (rid : Rid) (buf : Rec) : Except RmError RmFile × List BPCall :=
  match fetch_page_handle f rid.page_no with
  | .error e => (.error e, [])
  | .ok ph =>
    if !(Bitmap.is_set ph.bitmap rid.slot_no) then
      (.error (.pageNotExist rid.page_no), [.fetch rid.page_no])
    else
      let ph1 := { ph with slots := Function.update ph.slots rid.slot_no buf }
      (.ok { f with pages := Function.update f.pages rid.page_no ph1 }, [.fetch rid.page_no])

/-- `RmFileHandle::insert_record(rid, buf)` (positional insert): the source
grows the file by one page when `rid.page_no < num_pages` (note the
direction of the comparison), then fetches `rid.page_no` (throwing
`PageNotExistError` when it is out of range), sets the bit, increments
`num_records`, unlinks the chain head when the page becomes full, copies the
slot, and unpins the fetched page dirty. -/
def insert_record_at (f : RmFile) (rid : Rid) (buf : Rec) :
    Except RmError RmFile × List BPCall :=
  let grown :=
    if rid.page_no < f.file_hdr.num_pages then
      let (g, pno) := create_new_page_handle f
      (g, [BPCall.newp pno])
    else (f, ([] : List BPCall))
  let f1 := grown.1
  match fetch_page_handle f1 rid.page_no with
  | .error e => (.error e, grown.2)
  | .ok ph =>
    let ph1 := { ph with bitmap := Bitmap.set ph.bitmap rid.slot_no }
    let ph2 := { ph1 with num_records := ph1.num_records + 1 }
    let f2 := { f1 with pages := Function.update f1.pages rid.page_no ph2 }
    let f3 :=
      if ph2.num_records = f2.file_hdr.num_records_per_page then
        { f2 with file_hdr := { f2.file_hdr with first_free_page_no := ph2.next_free_page_no } }
      else f2
    let ph4 := { (f3.pages rid.page_no) with
      slots := Function.update (f3.pages rid.page_no).slots rid.slot_no buf }
    let f4 := { f3 with pages := Function.update f3.pages rid.page_no ph4 }
    (.ok f4, grown.2 ++ [.fetch rid.page_no, .unpin rid.page_no true])

/-! ## Concrete states used by the evaluation theorems -/

/-- An empty data page (all bits clear, `next_free_page_no = RM_NO_PAGE`). -/
def emptyPage : RmPage :=
  { num_records := 0
    next_free_page_no := RM_NO_PAGE
    bitmap := fun _ => false
    slots := fun _ => [] }

/-- A file whose page 1 holds records in slots 0 and 1 out of 4
(`num_records = 2`), with the page on the free chain. -/
def fileC1 : RmFile :=
  { file_hdr := { record_size := 8, num_records_per_page := 4, num_pages := 2,
                  first_free_page_no := 1 }
    pages := fun p =>
      if p = 1 then
        { num_records := 2
          next_free_page_no := RM_NO_PAGE
          bitmap := fun i => i == 0 || i == 1
          slots := fun _ => [] }
      else emptyPage }

/-- The file state after `delete_record`, or the input file on error. -/
def afterDel (f : RmFile) (rid : Rid) : RmFile :=
  match (delete_record f rid).1 with
  | .ok g => g
  | .error _ => f

/-- Scenario S2 of the spec: page 1 full (`num_records = 4`), page 2 the
head of the free chain (`first_free_page_no = 2`). -/
def fileC2 : RmFile :=
  { file_hdr := { record_size := 8, num_records_per_page := 4, num_pages := 3,
                  first_free_page_no := 2 }
    pages := fun p =>
      if p = 1 then
        { num_records := 4
          next_free_page_no := RM_NO_PAGE
          bitmap := fun i => i == 0 || i == 1 || i == 2 || i == 3
          slots := fun _ => [] }
      else emptyPage }

/-- **C1.** The claim says every successful `delete_record` clears the bit
at `rid.slot_no` and decrements `num_records`, keeping
`popcount(bitmap) = num_records`.  Evaluating the code on a non-full page
(`num_records = 2` of 4): the delete succeeds and clears the bit, but
`num_records` stays 2 while the bitmap popcount drops to 1 — the source
decrements only when the page was full and early-returns otherwise. -/
theorem c1_delete_breaks_accounting :
    (delete_record fileC1 ⟨1, 0⟩).1 = .ok (afterDel fileC1 ⟨1, 0⟩) ∧
    ((afterDel fileC1 ⟨1, 0⟩).pages 1).num_records = 2 ∧
    popcount ((afterDel fileC1 ⟨1, 0⟩).pages 1).bitmap 4 = 1 := by
  refine ⟨rfl, rfl, ?_⟩
  decide

/-- **C2.** The claim says deleting from a full page prepends the page to
the free chain, so `first_free_page_no` becomes `rid.page_no`.  Evaluating
the code on spec scenario S2 (page 1 full, `first_free_page_no = 2`,
delete `(1,1)`): `page 1.next_free_page_no` becomes 2 and `num_records`
becomes 3 as the claim says, but `release_page_handle` reads back the
pointer it just wrote, so `first_free_page_no` stays 2 instead of
becoming 1. -/
theorem c2_delete_full_keeps_head :
    (delete_record fileC2 ⟨1, 1⟩).1 = .ok (afterDel fileC2 ⟨1, 1⟩) ∧
    ((afterDel fileC2 ⟨1, 1⟩).pages 1).next_free_page_no = 2 ∧
    ((afterDel fileC2 ⟨1, 1⟩).pages 1).num_records = 3 ∧
    (afterDel fileC2 ⟨1, 1⟩).file_hdr.first_free_page_no = 2 := by
  exact ⟨rfl, rfl, rfl, rfl⟩

/-! ## Record scan cursor (`rm_scan.cpp`) -/

/-- `RmScan::next`: the while loop of the source, recursing on the number of
pages left.  While `rid.page_no < num_pages`: fetch the page, move
`slot_no` to the next set bit; if it is `< num_records_per_page` stop
there; otherwise step to `(page_no + 1, -1)` and, when that exceeds the
page count, stop at `(RM_NO_PAGE, -1)`. -/
def rmScanNext (f : RmFile) (rid : Rid) : Rid :=
  if h : rid.page_no < f.file_hdr.num_pages then
    let ph := f.pages rid.page_no
    let s := Bitmap.next_bit true ph.bitmap f.file_hdr.num_records_per_page rid.slot_no
    if s < f.file_hdr.num_records_per_page then ⟨rid.page_no, s⟩
    else if h2 : rid.page_no + 1 ≥ f.file_hdr.num_pages then ⟨RM_NO_PAGE, -1⟩
    else rmScanNext f ⟨rid.page_no + 1, -1⟩
  else rid
termination_by (f.file_hdr.num_pages - rid.page_no).toNat
decreasing_by
  simp only [not_le] at h2
  omega

/-- `RmScan::RmScan`: start at `(RM_FIRST_RECORD_PAGE, -1)` and advance
once. -/
def rmScanStart (f : RmFile) : Rid := rmScanNext f ⟨RM_FIRST_RECORD_PAGE, -1⟩

/-- `RmScan::is_end`: at end iff `page_no == RM_NO_PAGE`. -/
def rmScanIsEnd (rid : Rid) : Bool := rid.page_no == RM_NO_PAGE

/-- A freshly created file: only the header page exists (`num_pages = 1`,
zero data pages, empty free chain). -/
def fileEmpty : RmFile :=
  { file_hdr := { record_size := 8, num_records_per_page := 4, num_pages := 1,
                  first_free_page_no := RM_NO_PAGE }
    pages := fun _ => emptyPage }

/-- **C7.** The claim says that on every file — including one with zero
data pages — the scan terminates with `rid = (RM_NO_PAGE, -1)` and
`is_end()` true.  Evaluating the code on a file with zero data pages
(`num_pages = 1`): the constructor's loop guard `page_no < num_pages`
fails immediately, so `rid` stays `(1, -1)`, `is_end()` is `false`, and a
further `next()` leaves the cursor unchanged — the sentinel is never
reached. -/
theorem c7_scan_empty_never_ends :
    rmScanStart fileEmpty = ⟨1, -1⟩ ∧
    rmScanIsEnd (rmScanStart fileEmpty) = false ∧
    rmScanNext fileEmpty (rmScanStart fileEmpty) = ⟨1, -1⟩ := by
  have h : rmScanStart fileEmpty = ⟨1, -1⟩ := by
    rw [rmScanStart, rmScanNext]
    norm_num [fileEmpty, RM_FIRST_RECORD_PAGE]
  refine ⟨h, by rw [h]; rfl, ?_⟩
  rw [h, rmScanNext]
  norm_num [fileEmpty]

/-- **C6.** The claim says positional `insert_record(rid, buf)` with
`rid.page_no ≥ num_pages` grows the file until the page exists and does not
fail with `PageNotExists`.  Evaluating the code on a file with
`num_pages = 1` and `rid = (1, 0)`: the growth guard in the source is
`rid.page_no < num_pages` — inverted — so nothing is allocated and
`fetch_page_handle` throws `PageNotExistError(1)`. -/
theorem c6_positional_insert_throws :
    (insert_record_at fileEmpty ⟨1, 0⟩ [7]).1 = .error (.pageNotExist 1) := by
  rfl

/-- A file whose page 1 exists (`num_pages = 2`) with all bits clear. -/
def fileC8 : RmFile :=
  { file_hdr := { record_size := 8, num_records_per_page := 4, num_pages := 2,
                  first_free_page_no := 1 }
    pages := fun _ => emptyPage }

/-- **C8.** The claim says `delete_record` and `update_record` on an
existing page with a clear bit fail with `RecordNotFound(page_no, slot_no)`.
Evaluating the code at `rid = (1, 0)` on such a page: both throw
`PageNotExistError(1)` instead (state is left unchanged, since the throw
precedes every mutation, but the error kind is wrong and drops the slot
number). -/
theorem c8_wrong_error_kind :
    (delete_record fileC8 ⟨1, 0⟩).1 = .error (.pageNotExist 1) ∧
    (update_record fileC8 ⟨1, 0⟩ [7]).1 = .error (.pageNotExist 1) ∧
    (delete_record fileC8 ⟨1, 0⟩).1 ≠ .error (.recordNotFound 1 0) ∧
    (update_record fileC8 ⟨1, 0⟩ [7]).1 ≠ .error (.recordNotFound 1 0) := by
  refine ⟨rfl, rfl, ?_, ?_⟩
  · intro h
    rw [show (delete_record fileC8 ⟨1, 0⟩).1 = .error (.pageNotExist 1) from rfl] at h
    injection h with h
    cases h
  · intro h
    rw [show (update_record fileC8 ⟨1, 0⟩ [7]).1 = .error (.pageNotExist 1) from rfl] at h
    injection h with h
    cases h

/-- A file whose page 1 holds one record `[9]` in slot 0. -/
def fileC4 : RmFile :=
  { file_hdr := { record_size := 8, num_records_per_page := 4, num_pages := 2,
                  first_free_page_no := 1 }
    pages := fun p =>
      if p = 1 then
        { num_records := 1
          next_free_page_no := RM_NO_PAGE
          bitmap := fun i => i == 0
          slots := fun i => if i = 0 then [9] else [] }
      else emptyPage }

/-- **C4.** The claim says every record operation unpins the page it
acquired before returning, so the fetched page's pin count is unchanged
across the call.  Evaluating the code on a successful `get_record (1,0)`:
the operation's buffer-pool trace is a single `fetch` of page 1 with no
`unpin`, a net pin effect of +1, not 0.  (`insert_record`, `delete_record`
and `update_record` likewise never unpin; only the positional insert
does.) -/
theorem c4_get_record_leaks_pin :
    get_record fileC4 ⟨1, 0⟩ = (.ok [9], [.fetch 1]) ∧
    pinDelta (get_record fileC4 ⟨1, 0⟩).2 1 = 1 ∧
    (delete_record fileC1 ⟨1, 0⟩).2 = [.fetch 1] ∧
    pinDelta (delete_record fileC1 ⟨1, 0⟩).2 1 = 1 := by
  exact ⟨rfl, rfl, rfl, rfl⟩

/-! ## Buffer pool (`buffer_pool_manager.cpp`) -/

/-- A page identifier: file descriptor and page number. -/
structure PageId where
  fd : Int
  page_no : Int
deriving DecidableEq, Repr

/-- The byte buffer of one frame / one on-disk page. -/
abbrev PageData := List Int

/-- One frame of the pool: identity, buffer, pin count, dirty flag. -/
structure BPFrame where
  id : PageId
  data : PageData
  pin_count : Nat
  is_dirty : Bool
deriving DecidableEq, Repr

/-- Buffer pool state: frame array, page table (association list with the
semantics of `std::unordered_map`), free-frame list, and the disk image. -/
structure BufState where
  pages : Nat → BPFrame
  page_table : List (PageId × Nat)
  free_list : List Nat
  disk : PageId → PageData

/-- Page-table lookup (`page_table_.find`). -/
def ptLookup : List (PageId × Nat) → PageId → Option Nat
  | [], _ => none
  | (k, v) :: rest, pid => if k = pid then some v else ptLookup rest pid

/-- Page-table erase (`page_table_.erase`). -/
def ptErase (pt : List (PageId × Nat)) (pid : PageId) : List (PageId × Nat) :=
  pt.filter (fun kv => kv.1 ≠ pid)

/-- Page-table insert-or-assign (`page_table_[pid] = fid`). -/
def ptInsert (pt : List (PageId × Nat)) (pid : PageId) (fid : Nat) : List (PageId × Nat) :=
  (pid, fid) :: ptErase pt pid

/-- `BufferPoolManager::flush_page`: when resident, write the frame buffer
to disk and clear the dirty flag; report non-residency with `false`. -/
def flush_page (s : BufState) (pid : PageId) : Bool × BufState :=
  match ptLookup s.page_table pid with
  | some fid =>
    let page := s.pages fid
    (true, { s with
      disk := Function.update s.disk pid page.data
      pages := Function.update s.pages fid { page with is_dirty := false } })
  | none => (false, s)

/-- `BufferPoolManager::find_victim_page`: drain the free list first, else
take the replacer's victim.  The replacer is an external collaborator, so
its answer is passed in as `victim`. -/
def find_victim_page (s : BufState) (victim : Option Nat) : Option (Nat × BufState) :=
  match s.free_list with
  | fid :: rest => some (fid, { s with free_list := rest })
  | [] =>
    match victim with
    | some fid => some (fid, s)
    | none => none

/-- `BufferPoolManager::fetch_page`: on a page-table hit, increment the pin
count and return the frame.  On a miss, obtain a victim frame, write it back
when dirty, swap the page-table entries, read the on-disk image into the
frame and clear the dirty flag.  The source never assigns the pin count on
the miss path. -/
def fetch_page (s : BufState) (pid : PageId) (victim : Option Nat) :
    Option (Nat × BufState) :=
  match ptLookup s.page_table pid with
  | some fid =>
    let pg := s.pages fid
    let pg1 := { pg with pin_count := pg.pin_count + 1 }
    some (fid, { s with pages := Function.update s.pages fid pg1 })
  | none =>
    match find_victim_page s victim with
    | none => none
    | some (fid, s1) =>
      let vp := s1.pages fid
      let s2 :=
        if vp.is_dirty then
          let s' := (flush_page s1 vp.id).2
          let cleaned := { (s'.pages fid) with is_dirty := false }
          { s' with pages := Function.update s'.pages fid cleaned }
        else s1
      let s3 := { s2 with page_table := ptInsert (ptErase s2.page_table vp.id) pid fid }
      let pg := s3.pages fid
      let pg1 := { pg with id := pid, data := s3.disk pid, is_dirty := false }
      some (fid, { s3 with pages := Function.update s3.pages fid pg1 })

/-- `BufferPoolManager::unpin_page`: `true` (no-op) when not resident; when
`pin_count > 0` decrement it and stick the dirty flag; when `pin_count == 0`
the source still returns `true`, writes the buffer to disk when `is_dirty`,
erases the page-table entry and appends the frame to the free list. -/
def unpin_page (s : BufState) (pid : PageId) (is_dirty : Bool) : Bool × BufState :=
  match ptLookup s.page_table pid with
  | none => (true, s)
  | some fid =>
    let page := s.pages fid
    if page.pin_count > 0 then
      let page1 := { page with pin_count := page.pin_count - 1,
                               is_dirty := page.is_dirty || is_dirty }
      (true, { s with pages := Function.update s.pages fid page1 })
    else
      let s1 := if is_dirty then { s with disk := Function.update s.disk pid page.data } else s
      (true, { s1 with
        page_table := ptErase s1.page_table pid
        free_list := s1.free_list ++ [fid] })

/-- The page id used by the buffer-pool scenarios. -/
def pid0 : PageId := ⟨0, 1⟩

/-- Pool with one resident, unpinned (pin count 0), clean frame. -/
def bufC3 : BufState :=
  { pages := fun _ => ⟨pid0, [5], 0, false⟩
    page_table := [(pid0, 0)]
    free_list := []
    disk := fun _ => [] }

/-- **C3.** The claim says `unpin_page(pid, d)` on a resident frame with
`pin_count == 0` returns `false` and leaves the pool untouched.  Evaluating
the code on such a pool: it returns `true`, erases the page-table entry and
appends the frame to the free list — the pool state is visibly changed. -/
theorem c3_unpin_zero_frees_frame :
    (unpin_page bufC3 pid0 false).1 = true ∧
    (unpin_page bufC3 pid0 false).2.page_table = [] ∧
    (unpin_page bufC3 pid0 false).2.free_list = [0] := by
  exact ⟨rfl, rfl, rfl⟩

/-- Pool with one free frame (identity invalid, pin count 0) and the disk
image `[7]` for every page. -/
def bufMiss : BufState :=
  { pages := fun _ => ⟨⟨-1, -1⟩, [], 0, false⟩
    page_table := []
    free_list := [0]
    disk := fun _ => [7] }

/-- Pool in which `pid0` is resident in frame 0 with pin count 2. -/
def bufHit : BufState :=
  { pages := fun _ => ⟨pid0, [7], 2, false⟩
    page_table := [(pid0, 0)]
    free_list := []
    disk := fun _ => [7] }

/-- **C5.** The claim says a fetch that faults the page in over a victim
frame sets that frame's pin count to exactly 1 (and a hit increments it).
Evaluating the code: on a hit the pin count does go from 2 to 3, but on a
miss into a free frame the fault-in path never assigns the pin count, so it
stays 0 instead of 1 — even though the frame's identity and data are
updated. -/
theorem c5_fetch_miss_pin_count :
    ((fetch_page bufMiss pid0 none).map
      (fun r => ((r.2.pages r.1).pin_count, (r.2.pages r.1).id, (r.2.pages r.1).data))) =
      some (0, pid0, [7]) ∧
    ((fetch_page bufHit pid0 none).map (fun r => (r.2.pages r.1).pin_count)) = some 3 := by
  exact ⟨rfl, rfl⟩

/-! ## Round-trip and frame-effect theorems (C9, C10) -/

/-- `Bitmap::first_bit` either reports `n` (no bit with value `v` below
`n`) or lands on an index in `[0, n)` whose bit value is `v`. -/
theorem first_bit_cases (v : Bool) (bm : Int → Bool) (n : Int) :
    Bitmap.first_bit v bm n = n ∨
    (0 ≤ Bitmap.first_bit v bm n ∧ Bitmap.first_bit v bm n < n ∧
      bm (Bitmap.first_bit v bm n) = v) := by
  unfold Bitmap.first_bit
  cases hf : (List.range n.toNat).find? (fun i : Nat => bm (i : Int) == v) with
  | none => exact Or.inl rfl
  | some i =>
    right
    dsimp only
    have hp := List.find?_some hf
    simp only [beq_iff_eq] at hp
    have hmem : i ∈ List.range n.toNat := List.mem_of_find?_eq_some hf
    have hlt : i < n.toNat := List.mem_range.mp hmem
    refine ⟨by omega, by omega, hp⟩

/-- The record at `rid` is present with value `buf`, and `rid` is in range.
This is the invariant the round-trip theorem carries along a trace. -/
def persists (f : RmFile) (rid : Rid) (buf : Rec) : Prop :=
  (f.pages rid.page_no).bitmap rid.slot_no = true ∧
  (f.pages rid.page_no).slots rid.slot_no = buf ∧
  rid.page_no < f.file_hdr.num_pages ∧
  rid.slot_no < f.file_hdr.num_records_per_page

/-- One record-layer operation of `RmFileHandle`. -/
inductive RmOp where
  | ins (buf : Rec)
  | insAt (rid : Rid) (buf : Rec)
  | del (rid : Rid)
  | upd (rid : Rid) (buf : Rec)

/-- Whether an operation mutates the record at `rid`: a delete or update at
`rid`, or a positional insert at `rid`. -/
def RmOp.mutatesAt : RmOp → Rid → Bool
  | .ins _, _ => false
  | .insAt r _, rid => r == rid
  | .del r, rid => r == rid
  | .upd r _, rid => r == rid

/-- Run one operation on the file; a thrown error leaves the caller's file
state as it was (every throw in the source precedes its mutations). -/
def applyOp (f : RmFile) (op : RmOp) : RmFile :=
  match op with
  | .ins buf =>
    match (insert_record f buf).1 with
    | .ok (_, g) => g
    | .error _ => f
  | .insAt rid buf =>
    match (insert_record_at f rid buf).1 with
    | .ok g => g
    | .error _ => f
  | .del rid =>
    match (delete_record f rid).1 with
    | .ok g => g
    | .error _ => f
  | .upd rid buf =>
    match (update_record f rid buf).1 with
    | .ok g => g
    | .error _ => f

/-- Run a sequence of operations left to right. -/
def runOps (f : RmFile) : List RmOp → RmFile
  | [] => f
  | op :: ops => runOps (applyOp f op) ops

/-- What `create_page_handle` guarantees on success: the records-per-page
bound is untouched, the page count does not shrink, the chosen page number
is in range, existing pages are untouched, and the chosen page is either
freshly appended or the file is returned as is. -/
theorem create_page_handle_spec (f f1 : RmFile) (pno : Int) (calls : List BPCall)
    (h : create_page_handle f = (.ok (f1, pno), calls)) :
    f1.file_hdr.num_records_per_page = f.file_hdr.num_records_per_page ∧
    f.file_hdr.num_pages ≤ f1.file_hdr.num_pages ∧
    pno < f1.file_hdr.num_pages ∧
    (∀ p, p < f.file_hdr.num_pages → f1.pages p = f.pages p) ∧
    (pno = f.file_hdr.num_pages ∨ f1 = f) := by
  unfold create_page_handle create_new_page_handle at h
  by_cases hfree : f.file_hdr.first_free_page_no = RM_NO_PAGE
  · rw [if_pos hfree] at h
    simp only [Prod.mk.injEq, Except.ok.injEq] at h
    obtain ⟨⟨hf1, hpno⟩, -⟩ := h
    subst hf1 hpno
    refine ⟨rfl, by simp, by simp, ?_, Or.inl rfl⟩
    intro p hp
    exact Function.update_noteq (by omega) _ _
  · rw [if_neg hfree] at h
    unfold fetch_page_handle at h
    by_cases hge : f.file_hdr.first_free_page_no ≥ f.file_hdr.num_pages
    · rw [if_pos hge] at h
      simp at h
    · rw [if_neg hge] at h
      simp only [Prod.mk.injEq, Except.ok.injEq] at h
      obtain ⟨⟨hf1, hpno⟩, -⟩ := h
      subst hf1 hpno
      exact ⟨rfl, le_refl _, by omega, fun p _ => rfl, Or.inr rfl⟩

/-- `persists` transfers along pointwise-preserved fields. -/
theorem persists_of_fields (f g : RmFile) (rid : Rid) (buf : Rec)
    (h1 : (g.pages rid.page_no).bitmap rid.slot_no = (f.pages rid.page_no).bitmap rid.slot_no)
    (h2 : (g.pages rid.page_no).slots rid.slot_no = (f.pages rid.page_no).slots rid.slot_no)
    (h3 : f.file_hdr.num_pages ≤ g.file_hdr.num_pages)
    (h4 : g.file_hdr.num_records_per_page = f.file_hdr.num_records_per_page)
    (hp : persists f rid buf) : persists g rid buf := by
  obtain ⟨a, b, c, d⟩ := hp
  exact ⟨h1.trans a, h2.trans b, lt_of_lt_of_le c h3, by rw [h4]; exact d⟩

/-- Two distinct rids on the same page have distinct slots. -/
theorem rid_slot_ne {r rid : Rid} (hne : r ≠ rid) (hp : r.page_no = rid.page_no) :
    r.slot_no ≠ rid.slot_no := by
  intro hs
  exact hne (by cases r; cases rid; simp_all)

/-- An `update_record` away from `rid` preserves the record at `rid`. -/
theorem upd_preserves (f : RmFile) (rid r : Rid) (buf buf' : Rec)
    (hpers : persists f rid buf) (hne : r ≠ rid) :
    persists (applyOp f (.upd r buf')) rid buf := by
  simp only [applyOp, update_record, fetch_page_handle]
  by_cases hge : r.page_no ≥ f.file_hdr.num_pages
  · rw [if_pos hge]; exact hpers
  · rw [if_neg hge]
    dsimp only
    by_cases hb2 : Bitmap.is_set (f.pages r.page_no).bitmap r.slot_no = true
    · rw [if_neg (by simp [hb2])]
      dsimp only
      refine persists_of_fields f _ rid buf ?_ ?_ (le_refl _) rfl hpers
      · dsimp only
        rcases eq_or_ne rid.page_no r.page_no with hpp | hpp
        · rw [hpp, Function.update_same]
        · rw [Function.update_noteq hpp]
      · dsimp only
        rcases eq_or_ne rid.page_no r.page_no with hpp | hpp
        · rw [hpp, Function.update_same]
          dsimp only
          rw [Function.update_noteq (Ne.symm (rid_slot_ne hne hpp.symm))]
        · rw [Function.update_noteq hpp]
    · rw [if_pos (by simp only [Bool.not_eq_true] at hb2; simp [hb2])]
      exact hpers

/-- A `delete_record` away from `rid` preserves the record at `rid`. -/
theorem del_preserves (f : RmFile) (rid r : Rid) (buf : Rec)
    (hpers : persists f rid buf) (hne : r ≠ rid) :
    persists (applyOp f (.del r)) rid buf := by
  simp only [applyOp, delete_record, fetch_page_handle]
  by_cases hge : r.page_no ≥ f.file_hdr.num_pages
  · rw [if_pos hge]; exact hpers
  · rw [if_neg hge]
    dsimp only
    by_cases hb2 : Bitmap.is_set (f.pages r.page_no).bitmap r.slot_no = true
    · rw [if_neg (by simp [hb2])]
      try dsimp only
      by_cases hfull : (f.pages r.page_no).num_records = f.file_hdr.num_records_per_page
      · rw [if_pos hfull]
        simp only [release_page_handle]
        refine persists_of_fields f _ rid buf ?_ ?_ (le_refl _) rfl hpers
        · dsimp only
          rcases eq_or_ne rid.page_no r.page_no with hpp | hpp
          · rw [hpp]
            rw [Function.update_same, Function.update_same]
            dsimp only [Bitmap.reset]
            rw [Function.update_noteq (Ne.symm (rid_slot_ne hne hpp.symm))]
          · rw [Function.update_noteq hpp, Function.update_noteq hpp]
        · dsimp only
          rcases eq_or_ne rid.page_no r.page_no with hpp | hpp
          · rw [hpp]
            rw [Function.update_same, Function.update_same]
          · rw [Function.update_noteq hpp, Function.update_noteq hpp]
      · rw [if_neg hfull]
        refine persists_of_fields f _ rid buf ?_ ?_ (le_refl _) rfl hpers
        · dsimp only
          rcases eq_or_ne rid.page_no r.page_no with hpp | hpp
          · rw [hpp, Function.update_same]
            dsimp only [Bitmap.reset]
            rw [Function.update_noteq (Ne.symm (rid_slot_ne hne hpp.symm))]
          · rw [Function.update_noteq hpp]
        · dsimp only
          rcases eq_or_ne rid.page_no r.page_no with hpp | hpp
          · rw [hpp, Function.update_same]
          · rw [Function.update_noteq hpp]
    · rw [if_pos (by simp only [Bool.not_eq_true] at hb2; simp [hb2])]
      exact hpers

/-- What a successful `insert_record` produces: the page chosen by
`create_page_handle`, the slot chosen by `Bitmap::first_bit`, a bumped
`num_records`, the bit set and the record stored, with every other page and
the page counts untouched. -/
theorem insert_record_shape (f : RmFile) (buf' : Rec) (rid2 : Rid) (g : RmFile)
    (h : (insert_record f buf').1 = .ok (rid2, g)) :
    ∃ f1 calls, create_page_handle f = (.ok (f1, rid2.page_no), calls) ∧
      rid2.slot_no =
        Bitmap.first_bit false (f1.pages rid2.page_no).bitmap
          f1.file_hdr.num_records_per_page ∧
      g.file_hdr.num_pages = f1.file_hdr.num_pages ∧
      g.file_hdr.num_records_per_page = f1.file_hdr.num_records_per_page ∧
      (∀ p, p ≠ rid2.page_no → g.pages p = f1.pages p) ∧
      g.pages rid2.page_no =
        { num_records := (f1.pages rid2.page_no).num_records + 1
          next_free_page_no := (f1.pages rid2.page_no).next_free_page_no
          bitmap := Bitmap.set (f1.pages rid2.page_no).bitmap rid2.slot_no
          slots := Function.update (f1.pages rid2.page_no).slots rid2.slot_no buf' } := by
  unfold insert_record at h
  cases hc : create_page_handle f with
  | mk res calls =>
    rw [hc] at h
    cases res with
    | error e => simp at h
    | ok pr =>
      obtain ⟨f1, pno⟩ := pr
      dsimp only at h
      split at h <;>
      · simp only [Except.ok.injEq, Prod.mk.injEq] at h
        obtain ⟨h1, h2⟩ := h
        subst h1
        subst h2
        dsimp only
        refine ⟨f1, calls, rfl, rfl, rfl, rfl, ?_, ?_⟩
        · intro p hp
          exact Function.update_noteq hp _ _
        · rw [Function.update_same]

/-- Inserting a record preserves a record that persists at `rid`. -/
theorem ins_preserves (f : RmFile) (rid : Rid) (buf buf' : Rec)
    (hpers : persists f rid buf) :
    persists (applyOp f (.ins buf')) rid buf := by
  obtain ⟨hbit, hslot, hpage, hn⟩ := hpers
  simp only [applyOp]
  cases hres : (insert_record f buf').1 with
  | error e => exact ⟨hbit, hslot, hpage, hn⟩
  | ok pr =>
    obtain ⟨rid2, g⟩ := pr
    obtain ⟨f1, calls, hc, hfs, hnp, hnrpp, hother, hpg2⟩ :=
      insert_record_shape f buf' rid2 g hres
    obtain ⟨hnrpp1, hnple, hpno, hpgs, hcase⟩ :=
      create_page_handle_spec f f1 rid2.page_no calls hc
    have hmain : (g.pages rid.page_no).bitmap rid.slot_no =
        (f.pages rid.page_no).bitmap rid.slot_no ∧
        (g.pages rid.page_no).slots rid.slot_no =
        (f.pages rid.page_no).slots rid.slot_no := by
      rcases eq_or_ne rid.page_no rid2.page_no with hpp | hpp
      · rcases hcase with hcr | hcr
        · constructor <;> omega
        · have hf1 : f1.pages rid2.page_no = f.pages rid2.page_no := by rw [hcr]
          have hsne : rid.slot_no ≠ rid2.slot_no := by
            rcases first_bit_cases false (f1.pages rid2.page_no).bitmap
                f1.file_hdr.num_records_per_page with hca | hca
            · rw [hfs, hca]
              have hnr : f1.file_hdr.num_records_per_page =
                  f.file_hdr.num_records_per_page := hnrpp1
              omega
            · obtain ⟨-, -, hval⟩ := hca
              intro hs
              rw [hpp, ← hf1, hs, hfs] at hbit
              rw [hval] at hbit
              simp at hbit
          constructor
          · rw [hpp, hpg2]
            dsimp only [Bitmap.set]
            rw [Function.update_noteq hsne, hf1, ← hpp]
          · rw [hpp, hpg2]
            dsimp only
            rw [Function.update_noteq hsne, hf1, ← hpp]
      · constructor <;> rw [hother _ hpp, hpgs _ hpage]
    exact persists_of_fields f g rid buf hmain.1 hmain.2 (by omega)
      (hnrpp.trans hnrpp1) ⟨hbit, hslot, hpage, hn⟩

/-- What a successful positional insert produces: a possibly grown file
whose existing pages are untouched, with the target page's bit set,
`num_records` bumped and the slot overwritten, every other page untouched
and the per-page capacity unchanged. -/
theorem insert_record_at_shape (f : RmFile) (r : Rid) (buf' : Rec) (g : RmFile)
    (h : (insert_record_at f r buf').1 = .ok g) :
    ∃ f1 : RmFile,
      f.file_hdr.num_pages ≤ f1.file_hdr.num_pages ∧
      f1.file_hdr.num_records_per_page = f.file_hdr.num_records_per_page ∧
      (∀ p, p < f.file_hdr.num_pages → f1.pages p = f.pages p) ∧
      g.file_hdr.num_pages = f1.file_hdr.num_pages ∧
      g.file_hdr.num_records_per_page = f1.file_hdr.num_records_per_page ∧
      (∀ p, p ≠ r.page_no → g.pages p = f1.pages p) ∧
      g.pages r.page_no =
        { num_records := (f1.pages r.page_no).num_records + 1
          next_free_page_no := (f1.pages r.page_no).next_free_page_no
          bitmap := Bitmap.set (f1.pages r.page_no).bitmap r.slot_no
          slots := Function.update (f1.pages r.page_no).slots r.slot_no buf' } := by
  unfold insert_record_at fetch_page_handle at h
  by_cases hgrow : r.page_no < f.file_hdr.num_pages
  · rw [if_pos hgrow] at h
    unfold create_new_page_handle at h
    dsimp only at h
    rw [if_neg (show ¬ r.page_no ≥ f.file_hdr.num_pages + 1 by omega)] at h
    dsimp only at h
    rw [Function.update_noteq (show r.page_no ≠ f.file_hdr.num_pages by omega)] at h
    split at h <;>
    · dsimp only at h
      rw [Function.update_same] at h
      simp only [Except.ok.injEq] at h
      subst h
      refine ⟨(create_new_page_handle f).1, ?_, rfl, ?_, rfl, rfl, ?_, ?_⟩
      · simp only [create_new_page_handle]
        omega
      · intro p hp
        simp only [create_new_page_handle]
        exact Function.update_noteq (by omega) _ _
      · intro p hp
        dsimp only
        rw [Function.update_noteq hp, Function.update_noteq hp]
        simp only [create_new_page_handle]
      · dsimp only
        rw [Function.update_same]
        simp only [create_new_page_handle]
        rw [Function.update_noteq (show r.page_no ≠ f.file_hdr.num_pages by omega)]
  · rw [if_neg hgrow] at h
    dsimp only at h
    rw [if_pos (by omega)] at h
    simp at h

/-- A positional insert away from `rid` preserves the record at `rid`. -/
theorem insAt_preserves (f : RmFile) (rid r : Rid) (buf buf' : Rec)
    (hpers : persists f rid buf) (hne : r ≠ rid) :
    persists (applyOp f (.insAt r buf')) rid buf := by
  obtain ⟨hbit, hslot, hpage, hn⟩ := hpers
  simp only [applyOp]
  cases hres : (insert_record_at f r buf').1 with
  | error e => exact ⟨hbit, hslot, hpage, hn⟩
  | ok g =>
    obtain ⟨f1, hnple, hnrpp1, hpgs, hnp, hnrpp, hother, hpg2⟩ :=
      insert_record_at_shape f r buf' g hres
    have hmain : (g.pages rid.page_no).bitmap rid.slot_no =
        (f.pages rid.page_no).bitmap rid.slot_no ∧
        (g.pages rid.page_no).slots rid.slot_no =
        (f.pages rid.page_no).slots rid.slot_no := by
      rcases eq_or_ne rid.page_no r.page_no with hpp | hpp
      · have hsne : rid.slot_no ≠ r.slot_no :=
          Ne.symm (rid_slot_ne hne hpp.symm)
        have hf1 : f1.pages r.page_no = f.pages r.page_no := by
          rw [← hpp]
          exact hpgs _ hpage
        constructor
        · rw [hpp, hpg2]
          dsimp only [Bitmap.set]
          rw [Function.update_noteq hsne, hf1, ← hpp]
        · rw [hpp, hpg2]
          dsimp only
          rw [Function.update_noteq hsne, hf1, ← hpp]
      · constructor <;> rw [hother _ hpp, hpgs _ hpage]
    exact persists_of_fields f g rid buf hmain.1 hmain.2 (by omega)
      (hnrpp.trans hnrpp1) ⟨hbit, hslot, hpage, hn⟩

/-- Any single operation that does not mutate at `rid` preserves the
record persisting at `rid`. -/
theorem applyOp_preserves (f : RmFile) (rid : Rid) (buf : Rec) (op : RmOp)
    (hpers : persists f rid buf) (hmut : op.mutatesAt rid = false) :
    persists (applyOp f op) rid buf := by
  cases op with
  | ins buf' => exact ins_preserves f rid buf buf' hpers
  | insAt r buf' =>
    exact insAt_preserves f rid r buf buf' hpers
      (by simpa [RmOp.mutatesAt] using hmut)
  | del r =>
    exact del_preserves f rid r buf hpers
      (by simpa [RmOp.mutatesAt] using hmut)
  | upd r buf' =>
    exact upd_preserves f rid r buf buf' hpers
      (by simpa [RmOp.mutatesAt] using hmut)

/-- A whole trace of operations none of which mutates at `rid` preserves
the record persisting at `rid`. -/
theorem runOps_preserves (rid : Rid) (buf : Rec) (ops : List RmOp) :
    ∀ f : RmFile, persists f rid buf →
      (∀ op ∈ ops, op.mutatesAt rid = false) → persists (runOps f ops) rid buf := by
  induction ops with
  | nil => intro f hp _; exact hp
  | cons op rest ih =>
    intro f hp hops
    exact ih (applyOp f op)
      (applyOp_preserves f rid buf op hp (hops op (List.mem_cons_self op rest)))
      (fun o ho => hops o (List.mem_cons_of_mem op ho))

/-- A successful `insert_record` leaves the inserted record persisting at
the returned rid, provided the chosen slot is a real slot. -/
theorem ins_establishes (f : RmFile) (buf : Rec) (rid : Rid) (g : RmFile)
    (h : (insert_record f buf).1 = .ok (rid, g))
    (hslotlt : rid.slot_no < f.file_hdr.num_records_per_page) :
    persists g rid buf := by
  obtain ⟨f1, calls, hc, hfs, hnp, hnrpp, hother, hpg2⟩ :=
    insert_record_shape f buf rid g h
  obtain ⟨hnrpp1, hnple, hpno, hpgs, hcase⟩ :=
    create_page_handle_spec f f1 rid.page_no calls hc
  refine ⟨?_, ?_, ?_, ?_⟩
  · rw [hpg2]
    dsimp only [Bitmap.set]
    rw [Function.update_same]
  · rw [hpg2]
    dsimp only
    rw [Function.update_same]
  · omega
  · rw [hnrpp, hnrpp1]
    exact hslotlt

/-- **C9.** Record round-trip: if `insert_record(buf)` returns `rid` (with
a real slot, i.e. the chosen page had a free slot), then `get_record(rid)`
returns `buf`, and it still does after any further sequence of record
operations none of which mutates at `rid` (no `delete_record`,
`update_record` or positional insert at that same rid). -/
theorem c9_insert_get_round_trip (f : RmFile) (buf : Rec) (rid : Rid) (g : RmFile)
    (hins : (insert_record f buf).1 = .ok (rid, g))
    (hslotlt : rid.slot_no < f.file_hdr.num_records_per_page)
    (ops : List RmOp) (hops : ∀ op ∈ ops, op.mutatesAt rid = false) :
    (get_record (runOps g ops) rid).1 = .ok buf := by
  have hp := runOps_preserves rid buf ops g
    (ins_establishes f buf rid g hins hslotlt) hops
  obtain ⟨hbit, hslot, hpage, hn⟩ := hp
  simp only [get_record, fetch_page_handle]
  rw [if_neg (not_le.mpr hpage)]
  dsimp only
  rw [if_neg (by simp [Bitmap.is_set, hbit])]
  dsimp only
  rw [hslot]

/-- The file after inserting `[1, 2]` into the empty file. -/
def fileC9 : RmFile :=
  match (insert_record fileEmpty [1, 2]).1 with
  | .ok (_, g) => g
  | .error _ => fileEmpty

/-- Witness for C9 at a concrete input: insert `[1, 2]` into the empty
file (returning rid `(1, 0)`), run a delete and another insert elsewhere,
and read the record back. -/
theorem c9_insert_get_round_trip_witness :
    (get_record (runOps fileC9 [RmOp.del ⟨2, 0⟩, RmOp.ins [5]]) ⟨1, 0⟩).1 =
      .ok [1, 2] :=
  c9_insert_get_round_trip fileEmpty [1, 2] ⟨1, 0⟩ fileC9 rfl (by decide)
    [RmOp.del ⟨2, 0⟩, RmOp.ins [5]] (by decide)

/-- The state `update_record` produces on success: the target slot
overwritten, everything else as it was. -/
def slotWrite (f : RmFile) (rid : Rid) (buf : Rec) : RmFile :=
  let ph := f.pages rid.page_no
  let ph1 := { ph with slots := Function.update ph.slots rid.slot_no buf }
  { f with pages := Function.update f.pages rid.page_no ph1 }

/-- **C10.** For every rid whose page exists and whose bitmap bit is set,
`update_record(rid, buf)` succeeds and overwrites exactly the slot at
`rid.slot_no`: the file header, the page header fields (`num_records`,
`next_free_page_no`), the occupancy bitmap, every other slot of the page
and every other page are unchanged. -/
theorem c10_update_record_frame (f : RmFile) (rid : Rid) (buf : Rec)
    (hp : rid.page_no < f.file_hdr.num_pages)
    (hb : (f.pages rid.page_no).bitmap rid.slot_no = true) :
    ∃ g : RmFile,
      (update_record f rid buf).1 = .ok g ∧
      g.file_hdr = f.file_hdr ∧
      (g.pages rid.page_no).num_records = (f.pages rid.page_no).num_records ∧
      (g.pages rid.page_no).next_free_page_no =
        (f.pages rid.page_no).next_free_page_no ∧
      (g.pages rid.page_no).bitmap = (f.pages rid.page_no).bitmap ∧
      (g.pages rid.page_no).slots rid.slot_no = buf ∧
      (∀ s, s ≠ rid.slot_no →
        (g.pages rid.page_no).slots s = (f.pages rid.page_no).slots s) ∧
      (∀ p, p ≠ rid.page_no → g.pages p = f.pages p) := by
  refine ⟨slotWrite f rid buf, ?_, rfl, ?_, ?_, ?_, ?_, ?_, ?_⟩
  · simp only [update_record, fetch_page_handle]
    rw [if_neg (not_le.mpr hp)]
    dsimp only
    rw [if_neg (by simp [Bitmap.is_set, hb])]
    rfl
  · simp only [slotWrite]
    rw [Function.update_same]
  · simp only [slotWrite]
    rw [Function.update_same]
  · simp only [slotWrite]
    rw [Function.update_same]
  · simp only [slotWrite]
    rw [Function.update_same]
    exact Function.update_same _ _ _
  · intro s hs
    simp only [slotWrite]
    rw [Function.update_same]
    exact Function.update_noteq hs _ _
  · intro p hpn
    simp only [slotWrite]
    rw [Function.update_noteq hpn]

/-- Witness for C10 at a concrete input: update slot `(1, 0)` (which holds
`[9]`) of a two-page file with `[3]`. -/
theorem c10_update_record_frame_witness :
    ∃ g : RmFile,
      (update_record fileC4 ⟨1, 0⟩ [3]).1 = .ok g ∧
      g.file_hdr = fileC4.file_hdr ∧
      (g.pages 1).num_records = (fileC4.pages 1).num_records ∧
      (g.pages 1).next_free_page_no = (fileC4.pages 1).next_free_page_no ∧
      (g.pages 1).bitmap = (fileC4.pages 1).bitmap ∧
      (g.pages 1).slots 0 = [3] ∧
      (∀ s, s ≠ (0 : Int) → (g.pages 1).slots s = (fileC4.pages 1).slots s) ∧
      (∀ p, p ≠ (1 : Int) → g.pages p = fileC4.pages p) :=
  c10_update_record_frame fileC4 ⟨1, 0⟩ [3] (by decide) (by decide)
